/-
  Verification of the download-resolution pipeline of a single-command
  video-downloading bot (src/bot.py).

  Shallow embedding: the pure helpers (`_sanitize_filename`, `_is_valid_url`,
  `_has_video_extension`) are translated directly; functions that perform
  network or filesystem I/O (`_is_video_content_type`, `download_direct`,
  `download_video`, the `download_command` handler) are embedded as pure
  functions over an explicit environment describing the outcomes of the
  external calls (HTTP responses, the chunk stream of a GET body, the result
  of each strategy) and return, besides the value that the Python function
  returns, the observable effects the claims speak about (file left on disk,
  network calls performed, cleanup events).

  Python strings are modelled as `List Char` (Python `len`/slicing count code
  points, as does `List Char`); byte counts are `Nat`.
-/
import Mathlib

namespace VideoBot

/-! ### Python string primitives

`pyStartswith`, `pyEndswith`, `pyIn` model Python's `str.startswith`,
`str.endswith` and the `in` substring test on code-point lists. -/

def pyStartswith (s pre : List Char) : Bool := pre.isPrefixOf s

def pyEndswith (s suf : List Char) : Bool := suf.isSuffixOf s

def pyIn (needle : List Char) : List Char → Bool
  | [] => needle.isEmpty
  | c :: rest => needle.isPrefixOf (c :: rest) || pyIn needle rest

/-- Python `str.strip(chars)`: remove leading and trailing characters that
belong to `set`. -/
def pyStrip (set cs : List Char) : List Char :=
  ((cs.dropWhile (set.contains ·)).reverse.dropWhile (set.contains ·)).reverse

/-! ### Filename sanitizer (src/bot.py, `_sanitize_filename`) -/

/-- A character matched by the regex `[<>:"/\\|?*\x00-\x1f]` in
`_sanitize_filename`. -/
def forbiddenChar (c : Char) : Bool :=
  c = '<' || c = '>' || c = ':' || c = '"' || c = '/' || c = '\\' ||
  c = '|' || c = '?' || c = '*' || c.toNat ≤ 0x1f

/-- Core of `_sanitize_filename` on code-point lists:
`re.sub(r'[<>:"/\\|?*\x00-\x1f]', "_", name)`, then `name.strip(". ")`,
then `if len(name) > 100: name = name[:100]`. -/
def sanitizeChars (cs : List Char) : List Char :=
  let r := cs.map (fun c => if forbiddenChar c then '_' else c)
  let r := pyStrip ['.', ' '] r
  if 100 < r.length then r.take 100 else r

/-- Python `_sanitize_filename(name)`: the final `return name or "video"` maps the
empty string to `"video"`. -/
def _sanitize_filename (s : String) : String :=
  let r := sanitizeChars s.data
  if r.isEmpty then "video" else String.mk r

/-! ### URL parsing (CPython `urllib.parse.urlparse`)

The bot calls `urllib.parse.urlparse`; the relevant behaviour of CPython's
`urlsplit`/`urlparse` (3.12) is modelled here: WHATWG stripping of leading
C0-control/space characters, removal of tab/CR/LF, scheme recognition with
lower-casing, netloc extraction up to the first of `/?#`, the mismatched
IPv6-bracket `ValueError` (modelled as `none`), fragment and query removal
from the path, and `urlparse`'s params split on the last path segment.
Not modelled (irrelevant to every claim, which use plain ASCII hosts):
validation of a bracket-enclosed IPv6/IPvFuture host and the NFKC netloc
check, both of which only reject inputs no claim exercises. -/

structure UrlParts where
  scheme : List Char
  netloc : List Char
  path : List Char
deriving Repr, DecidableEq

/-- CPython `scheme_chars`: ASCII letters, digits, and `+`, `-`, `.`. -/
def isSchemeChar (c : Char) : Bool :=
  c.isAlpha || c.isDigit || c = '+' || c = '-' || c = '.'

/-- A character of `_WHATWG_C0_CONTROL_OR_SPACE`. -/
def whatwgControlOrSpace (c : Char) : Bool := c.toNat ≤ 0x20

/-- One of `_UNSAFE_URL_BYTES_TO_REMOVE` (tab, CR, LF). -/
def unsafeUrlByte (c : Char) : Bool := c = '\t' || c = '\r' || c = '\n'

def notNetlocDelim (c : Char) : Bool := !(c = '/' || c = '?' || c = '#')

/-- Scheme recognition of CPython `urlsplit`:
`i = url.find(':'); if i > 0 and url[0] is an ASCII letter and all of
url[:i] are scheme chars: scheme, url = url[:i].lower(), url[i+1:]`.
Returns the (possibly empty) lower-cased scheme and the remaining input. -/
def splitScheme (url : List Char) : List Char × List Char :=
  let pre := url.takeWhile (· ≠ ':')
  if pre.length < url.length &&  -- a colon occurs
     !pre.isEmpty &&
     (match pre.head? with | some c => c.isAlpha | none => false) &&
     pre.all isSchemeChar then
    (pre.map Char.toLower, (url.dropWhile (· ≠ ':')).tail)
  else
    ([], url)

/-- Netloc extraction of CPython `urlsplit`:
`if url[:2] == '//': netloc, url = _splitnetloc(url, 2)` where
`_splitnetloc` cuts at the first of `/?#`. -/
def splitNetloc : List Char → List Char × List Char
  | '/' :: '/' :: r => (r.takeWhile notNetlocDelim, r.dropWhile notNetlocDelim)
  | rest => ([], rest)

/-- CPython `urlsplit` (scheme, netloc and path components; `none` models a
raised `ValueError`). -/
def pyUrlsplit (url : List Char) : Option UrlParts :=
  let url := (url.dropWhile whatwgControlOrSpace).filter (fun c => !unsafeUrlByte c)
  let sr := splitScheme url
  let nr := splitNetloc sr.2
  -- `if ('[' in netloc and ']' not in netloc) or
  --     (']' in netloc and '[' not in netloc): raise ValueError`
  if (nr.1.contains '[' && !nr.1.contains ']') ||
     (nr.1.contains ']' && !nr.1.contains '[') then
    none
  else
    -- fragment then query are split off; what remains is the path
    some ⟨sr.1, nr.1, ((nr.2.takeWhile (· ≠ '#')).takeWhile (· ≠ '?'))⟩

/-- CPython `urlparse` additionally splits `;params` off the last path
segment. -/
def pySplitParams (p : List Char) : List Char :=
  let lastSeg := (p.reverse.takeWhile (· ≠ '/')).reverse
  if lastSeg.contains ';' then
    p.take (p.length - lastSeg.length) ++ lastSeg.takeWhile (· ≠ ';')
  else p

def pyUrlparse (url : List Char) : Option UrlParts :=
  (pyUrlsplit url).map (fun r => { r with path := pySplitParams r.path })

/-! ### URL classifier (src/bot.py) -/

/-- Python `_is_valid_url(url)`: `result.scheme in ("http", "https") and
bool(result.netloc)`; a raised exception yields `False`. -/
def _is_valid_url (url : String) : Bool :=
  match pyUrlparse url.data with
  | none => false
  | some r => (r.scheme = "http".data || r.scheme = "https".data) && !r.netloc.isEmpty

def VIDEO_EXTENSIONS : List (List Char) :=
  [".mp4".data, ".webm".data, ".mkv".data, ".avi".data, ".mov".data,
   ".flv".data, ".wmv".data, ".m4v".data, ".mpg".data, ".mpeg".data]

/-- Python `_has_video_extension(url)`: the parsed path, lower-cased, ends with a
known video extension; a raised exception yields `False`. -/
def _has_video_extension (url : String) : Bool :=
  match pyUrlparse url.data with
  | none => false
  | some r => VIDEO_EXTENSIONS.any (fun ext => pyEndswith (r.path.map Char.toLower) ext)

/-- Outcome of `requests.head(url, allow_redirects=True, timeout=10)` when it
does not raise: the final HTTP status and `resp.headers.get("Content-Type", "")`.
(`requests` raises on transport errors and timeouts, never on a status code.) -/
structure HeadResponse where
  status : Nat
  contentType : String
deriving Repr, DecidableEq

/-- Python `_is_video_content_type(url)` over the outcome of the HEAD request
(`none` models a raised network error or timeout): returns
`content_type.startswith("video/")`; the status code is never consulted. -/
def _is_video_content_type (resp : Option HeadResponse) : Bool :=
  match resp with
  | none => false
  | some r => pyStartswith r.contentType.data "video/".data

/-! ### Direct fetch strategy (src/bot.py, `download_direct`) -/

/-- CPython `posixpath.splitext(p)[1]`: the extension of the last path
segment, including its dot; empty when the segment has no dot or only
leading dots before the last dot. -/
def pySplitextExt (p : List Char) : List Char :=
  let baseRev := p.reverse.takeWhile (· ≠ '/')
  let extRev := baseRev.takeWhile (· ≠ '.')
  if extRev.length = baseRev.length then []
  else if (baseRev.drop (extRev.length + 1)).all (· = '.') then []
  else '.' :: extRev.reverse

/-- CPython `posixpath.join(a, b)` for a single pair. -/
def pyPathJoin (a b : List Char) : List Char :=
  if b.head? = some '/' then b
  else if a.isEmpty || a.getLast? = some '/' then a ++ b
  else a ++ '/' :: b

/-- Outcome of `requests.get(url, stream=True, timeout=30)` when the request
itself does not raise: final status, `resp.headers.get("Content-Type", "")`,
and the byte-lengths of the chunks `resp.iter_content(chunk_size=8192)`
yields. -/
structure GetResponse where
  status : Nat
  contentType : String
  chunks : List Nat
deriving Repr, DecidableEq

/-- External outcomes available to one `download_direct` call: the HEAD
probe's outcome and the streaming GET's outcome (`none` = the call raised). -/
structure DirectEnv where
  head : Option HeadResponse
  get : Option GetResponse
deriving Repr, DecidableEq

/-- The streaming loop of `download_direct`:
`for chunk in resp.iter_content(8192): size += len(chunk);
 if size > MAX_FILE_SIZE_BYTES: close; os.remove; return None; f.write(chunk)`.
First component: `none` when the transfer was aborted (file deleted),
`some size` when the stream was written out in full. Second component: the
file's size after each executed `f.write`, in order. -/
def streamLoop (maxBytes : Nat) : List Nat → Nat → Option Nat × List Nat
  | [], size => (some size, [])
  | c :: rest, size =>
    if maxBytes < size + c then (none, [])
    else
      let r := streamLoop maxBytes rest (size + c)
      (r.1, (size + c) :: r.2)

/-- What one `download_direct` call leaves behind: the returned value, the
size of the file remaining at the output path (`none` = no file on disk),
and whether the streaming GET was issued. -/
structure DirectOutcome where
  result : Option String
  fileSize : Option Nat
  getPerformed : Bool
deriving Repr, DecidableEq

/-- The extension choice of `download_direct`:
`ext = ".mp4"; if _has_video_extension(url):
ext = os.path.splitext(urlparse(url).path)[1]; elif "webm" in content_type:
ext = ".webm"; elif "matroska" in content_type or "x-matroska" in
content_type: ext = ".mkv"`. A `urlparse` exception here would be caught by
the outer handler (the `none` branch); it cannot occur when
`_has_video_extension url` already returned true. -/
def directExt (url contentType : String) : Option (List Char) :=
  if _has_video_extension url then
    match pyUrlparse url.data with
    | some r => some (pySplitextExt r.path)
    | none => none
  else if pyIn "webm".data contentType.data then some ".webm".data
  else if pyIn "matroska".data contentType.data ||
          pyIn "x-matroska".data contentType.data then some ".mkv".data
  else some ".mp4".data

/-- Python `download_direct(url, dest_dir)` over the network environment.
`rand` models `uuid.uuid4().hex[:8]`; `maxBytes` is `MAX_FILE_SIZE_BYTES`.
A raised exception anywhere in the `try` block is caught and yields `None`;
`resp.raise_for_status()` raises exactly on a 4xx/5xx status. -/
def download_direct (url destDir rand : String) (maxBytes : Nat)
    (env : DirectEnv) : DirectOutcome :=
  if !(_has_video_extension url || _is_video_content_type env.head) then
    ⟨none, none, false⟩
  else
    match env.get with
    | none => ⟨none, none, true⟩
    | some resp =>
      if 400 ≤ resp.status && resp.status < 600 then ⟨none, none, true⟩
      else
        match directExt url resp.contentType with
        | none => ⟨none, none, true⟩
        | some ext =>
          let filename := (_sanitize_filename ("video_" ++ rand)).data ++ ext
          let filepath := pyPathJoin destDir.data filename
          match (streamLoop maxBytes resp.chunks 0).1 with
          | none => ⟨none, none, true⟩
          | some size => ⟨some (String.mk filepath), some size, true⟩

/-! ### Download resolver (src/bot.py, `download_video`) -/

inductive ResolverEvent where
  | makedirs
  | callYtdlp
  | callDirect
deriving Repr, DecidableEq

/-- Python truthiness of an optional string: `None` and `""` are falsy. -/
def pyTruthyStr : Option String → Bool
  | none => false
  | some s => !s.isEmpty

/-- Python `download_video(url, dest_dir)` over the two strategies' results:
`os.makedirs(dest_dir, exist_ok=True)`, then yt-dlp; `if path: return path`;
else the direct download's result. The event list records the calls in
order. -/
def download_video (ytdlpResult directResult : Option String) :
    Option String × List ResolverEvent :=
  if pyTruthyStr ytdlpResult then
    (ytdlpResult, [.makedirs, .callYtdlp])
  else
    (directResult, [.makedirs, .callYtdlp, .callDirect])

/-! ### Command handler (src/bot.py, `download_command`) -/

inductive CmdEvent where
  | mkdtemp
  | resolveCall
  | rmtree
deriving Repr, DecidableEq

/-- Outcome of the `download_video` call inside the executor: a returned
value, or an unexpected internal exception propagating out of it. -/
inductive ResolveOutcome where
  | ok (path : Option String)
  | raised
deriving Repr, DecidableEq

inductive CmdOutcome where
  | invalidUrl
  | internalError
  | couldNotDownload
  | tooLarge
  | emptyFile
  | delivered (path : String) (size : Nat)
deriving Repr, DecidableEq

structure CmdResult where
  outcome : CmdOutcome
  events : List CmdEvent
  tmpDirExists : Bool
deriving Repr, DecidableEq

/-- The `/download` handler: reject invalid URLs before any I/O; otherwise
`tmp_dir = tempfile.mkdtemp(...)`, run `download_video` inside `try`, branch
on `filepath is None`, `file_size > MAX_FILE_SIZE_BYTES`, `file_size == 0`,
else deliver the file; `finally: shutil.rmtree(tmp_dir, ignore_errors=True)`
runs on every exit path, so the workspace never survives the call.
`sizeOf` models `os.path.getsize`. -/
def download_command (url : String) (r : ResolveOutcome)
    (sizeOf : String → Nat) (maxBytes : Nat) : CmdResult :=
  if !_is_valid_url url then ⟨.invalidUrl, [], false⟩
  else
    match r with
    | .raised => ⟨.internalError, [.mkdtemp, .resolveCall, .rmtree], false⟩
    | .ok none => ⟨.couldNotDownload, [.mkdtemp, .resolveCall, .rmtree], false⟩
    | .ok (some p) =>
      let size := sizeOf p
      if maxBytes < size then ⟨.tooLarge, [.mkdtemp, .resolveCall, .rmtree], false⟩
      else if size = 0 then ⟨.emptyFile, [.mkdtemp, .resolveCall, .rmtree], false⟩
      else ⟨.delivered p size, [.mkdtemp, .resolveCall, .rmtree], false⟩

/-! ### Extractor strategy options (src/bot.py, `download_with_ytdlp`) -/

/-- The `ydl_opts` dict built by `download_with_ytdlp` (the fields the claims
concern). `ffmpegLocation` is the optional `ffmpeg_location` entry. -/
structure YdlOpts where
  outtmpl : String
  format : String
  mergeOutputFormat : String
  ffmpegLocation : Option String
deriving Repr, DecidableEq

/-- Modelled from the spec: the merge/mux tool locator (`check_ffmpeg`,
`locate(name) -> path | absent`) is referenced by the repository's tests but
absent from src/bot.py; per the spec it is resolved once at startup via the
system lookup (`shutil.which`) and its absence is not an error. -/
def check_ffmpeg (which : String → Option String) : Option String :=
  which "ffmpeg"

/-- Modelled from the spec: the `ffmpeg_location` pass-through in
`download_with_ytdlp` is exercised by the repository's tests but absent from
src/bot.py. The literal option values are those of src/bot.py's `ydl_opts`;
per the spec, the tool's location is added only when the startup lookup
found it, and the options are otherwise unchanged. -/
def buildYdlOpts (destDir : String) (maxBytes : Nat)
    (ffmpegLoc : Option String) : YdlOpts :=
  let limit := toString maxBytes
  { outtmpl := String.mk (pyPathJoin destDir.data "%(title).100s.%(ext)s".data)
    format := "bestvideo[filesize<" ++ limit ++ "]+bestaudio[filesize<" ++
      limit ++ "]/best[filesize<" ++ limit ++ "]/bestvideo+bestaudio/best"
    mergeOutputFormat := "mp4"
    ffmpegLocation := ffmpegLoc }

/-- Modelled from the spec: `download_with_ytdlp` hands the built options to
the extractor capability and returns its result; a missing merge tool only
changes the options' `ffmpeg_location` entry, never short-circuits the
call. -/
def download_with_ytdlp (destDir : String) (maxBytes : Nat)
    (ffmpegLoc : Option String)
    (extractor : YdlOpts → Option String) : Option String :=
  extractor (buildYdlOpts destDir maxBytes ffmpegLoc)

/-! ### Lemmas about the streaming loop -/

theorem streamLoop_fst_eq_none (maxBytes : Nat) (chunks : List Nat) :
    ∀ size, size ≤ maxBytes → maxBytes < size + chunks.sum →
      (streamLoop maxBytes chunks size).1 = none := by
  induction chunks with
  | nil =>
    intro size hle hover
    rw [List.sum_nil] at hover
    omega
  | cons c rest ih =>
    intro size hle hover
    rw [List.sum_cons] at hover
    simp only [streamLoop]
    split
    · rfl
    · rename_i h
      exact ih (size + c) (by omega) (by omega)

theorem streamLoop_fst_eq_some (maxBytes : Nat) (chunks : List Nat) :
    ∀ size, size + chunks.sum ≤ maxBytes →
      (streamLoop maxBytes chunks size).1 = some (size + chunks.sum) := by
  induction chunks with
  | nil =>
    intro size hle
    rw [List.sum_nil]
    simp [streamLoop]
  | cons c rest ih =>
    intro size hle
    rw [List.sum_cons] at hle ⊢
    simp only [streamLoop]
    split
    · rename_i h
      exact False.elim (by omega)
    · have e : size + (c + rest.sum) = size + c + rest.sum := by omega
      rw [e]
      exact ih (size + c) (by omega)

theorem streamLoop_snd_le (maxBytes : Nat) (chunks : List Nat) :
    ∀ size, size ≤ maxBytes → ∀ x ∈ (streamLoop maxBytes chunks size).2, x ≤ maxBytes := by
  induction chunks with
  | nil =>
    intro size _ x hx
    simp [streamLoop] at hx
  | cons c rest ih =>
    intro size hle x hx
    simp only [streamLoop] at hx
    split at hx
    · simp at hx
    · rename_i h
      change x ∈ (size + c) :: (streamLoop maxBytes rest (size + c)).2 at hx
      rcases List.mem_cons.mp hx with rfl | hx'
      · omega
      · exact ih (size + c) (by omega) x hx'

/-! ### Lemmas about the direct-fetch guard and extension choice -/

theorem hasVideoExt_parse_isSome {url : String}
    (h : _has_video_extension url = true) : (pyUrlparse url.data).isSome = true := by
  unfold _has_video_extension at h
  cases hp : pyUrlparse url.data with
  | none => rw [hp] at h; exact absurd h (by simp)
  | some r => rfl

theorem directExt_isSome (url ct : String) : (directExt url ct).isSome = true := by
  unfold directExt
  split
  · rename_i h
    cases hp : pyUrlparse url.data with
    | none =>
      have hs := hasVideoExt_parse_isSome h
      rw [hp] at hs
      exact absurd hs (by simp)
    | some r => rfl
  · split
    · rfl
    · split
      · rfl
      · rfl

/-- Shape of a fully successful direct fetch: guard passed, GET succeeded
with a non-error status, and the whole stream fit under the ceiling. -/
theorem download_direct_stream_success (url destDir rand : String) (maxBytes : Nat)
    (env : DirectEnv) (resp : GetResponse)
    (hguard : (_has_video_extension url || _is_video_content_type env.head) = true)
    (hget : env.get = some resp)
    (hstatus : resp.status < 400)
    (hle : resp.chunks.sum ≤ maxBytes) :
    (download_direct url destDir rand maxBytes env).result.isSome = true ∧
    (download_direct url destDir rand maxBytes env).fileSize = some resp.chunks.sum := by
  unfold download_direct
  rw [hguard, hget]
  simp only [Bool.not_true]
  rw [if_neg (by simp)]
  rw [if_neg (by simp only [Bool.and_eq_true, decide_eq_true_eq]; omega)]
  cases hde : directExt url resp.contentType with
  | none =>
    have hs := directExt_isSome url resp.contentType
    rw [hde] at hs
    exact absurd hs (by simp)
  | some ext =>
    rw [streamLoop_fst_eq_some maxBytes resp.chunks 0 (by omega)]
    simp

/-! ### C1 -/

/-- C1, counterexample: the claim states that the content-type probe returns
true iff the Content-Type starts with "video/" AND the status is 2xx; the
code never consults the status, so a 404 response whose Content-Type is
"video/mp4" already makes the probe return true, refuting the claimed
equivalence at this input. -/
theorem c1_counterexample :
    ¬(_is_video_content_type (some ⟨404, "video/mp4"⟩) = true ↔
      (pyStartswith "video/mp4".data "video/".data = true ∧ 200 ≤ 404 ∧ 404 ≤ 299)) := by
  decide

/-- C1, amended: `_is_video_content_type` returns true iff the HEAD request
completed without a raised network error or timeout and the response's
declared Content-Type begins with "video/"; the HTTP status code is ignored.
On any network error or timeout it returns false. -/
theorem c1_probe_amended (resp : Option HeadResponse) :
    _is_video_content_type resp = true ↔
      ∃ r, resp = some r ∧ pyStartswith r.contentType.data "video/".data = true := by
  cases resp with
  | none => simp [_is_video_content_type]
  | some r => simp [_is_video_content_type]

/-! ### C2 -/

/-- C2: whenever the GET response's cumulative chunk size exceeds the size
ceiling, `download_direct` returns no result and leaves no file on disk
(the partially written file is deleted at the moment the running count
exceeds the ceiling). -/
theorem c2_direct_size_ceiling (url destDir rand : String) (maxBytes : Nat)
    (env : DirectEnv) (resp : GetResponse)
    (hget : env.get = some resp)
    (hover : maxBytes < resp.chunks.sum) :
    (download_direct url destDir rand maxBytes env).result = none ∧
    (download_direct url destDir rand maxBytes env).fileSize = none := by
  have hn := streamLoop_fst_eq_none maxBytes resp.chunks 0 (Nat.zero_le _) (by omega)
  unfold download_direct
  simp only [hget]
  split
  · exact ⟨rfl, rfl⟩
  · split
    · exact ⟨rfl, rfl⟩
    · split
      · exact ⟨rfl, rfl⟩
      · rw [hn]
        exact ⟨rfl, rfl⟩

theorem c2_witness :
    (download_direct "https://example.com/clip.mp4" "dl" "abcd1234" 100
      ⟨none, some ⟨200, "video/mp4", [101]⟩⟩).result = none ∧
    (download_direct "https://example.com/clip.mp4" "dl" "abcd1234" 100
      ⟨none, some ⟨200, "video/mp4", [101]⟩⟩).fileSize = none :=
  c2_direct_size_ceiling "https://example.com/clip.mp4" "dl" "abcd1234" 100
    ⟨none, some ⟨200, "video/mp4", [101]⟩⟩ ⟨200, "video/mp4", [101]⟩ rfl (by decide)

/-! ### C3 -/

/-- C3: the resolver first ensures the workspace directory exists
(`makedirs` is the first event), then calls the extractor strategy; a path
from the extractor is returned with the direct strategy never invoked, and
an extractor "no result" leads to exactly one direct-fetch call whose result
is returned. -/
theorem c3_resolver_order (yt direct : Option String) :
    (∀ p, yt = some p → p ≠ "" →
      download_video yt direct =
        (some p, [ResolverEvent.makedirs, ResolverEvent.callYtdlp])) ∧
    (yt = none →
      download_video yt direct =
        (direct, [ResolverEvent.makedirs, ResolverEvent.callYtdlp,
                  ResolverEvent.callDirect])) := by
  constructor
  · rintro p rfl hp
    simp [download_video, pyTruthyStr, String.isEmpty_iff, hp]
  · rintro rfl
    simp [download_video, pyTruthyStr]

theorem c3_witness :
    download_video (some "/tmp/a.mp4") none =
      (some "/tmp/a.mp4", [ResolverEvent.makedirs, ResolverEvent.callYtdlp]) ∧
    download_video none (some "/tmp/b.mp4") =
      (some "/tmp/b.mp4", [ResolverEvent.makedirs, ResolverEvent.callYtdlp,
                           ResolverEvent.callDirect]) :=
  ⟨(c3_resolver_order (some "/tmp/a.mp4") none).1 "/tmp/a.mp4" rfl (by decide),
   (c3_resolver_order none (some "/tmp/b.mp4")).2 rfl⟩

/-! ### C4 -/

/-- C4 (settled against the spec-modelled locator and pass-through, which
the repository's tests exercise but src/bot.py does not contain): the
extractor options carry the merge tool's location exactly when the startup
lookup found one; the extractor capability is invoked either way, so a
missing tool never by itself makes the strategy fail. -/
theorem c4_ffmpeg_passthrough (destDir : String) (maxBytes : Nat) :
    (∀ p, (buildYdlOpts destDir maxBytes (some p)).ffmpegLocation = some p) ∧
    ((buildYdlOpts destDir maxBytes none).ffmpegLocation = none) ∧
    (∀ loc extractor,
      download_with_ytdlp destDir maxBytes loc extractor =
        extractor (buildYdlOpts destDir maxBytes loc)) ∧
    (∀ path, download_with_ytdlp destDir maxBytes none (fun _ => some path) = some path) ∧
    (∀ which extractor,
      download_with_ytdlp destDir maxBytes (check_ffmpeg which) extractor =
        extractor (buildYdlOpts destDir maxBytes (which "ffmpeg"))) :=
  ⟨fun _ => rfl, rfl, fun _ _ => rfl, fun _ => rfl, fun _ _ => rfl⟩

/-! ### C5 -/

/-- C5: a resolution that produced a zero-byte file is never delivered (the
handler reports it as a failure), and a direct fetch that passes the
video-content-type probe and streams a non-empty body under the ceiling
returns a path whose file holds exactly the streamed bytes, hence is
non-empty. -/
theorem c5_empty_result :
    (∀ url r sizeOf maxBytes p n,
      (download_command url r sizeOf maxBytes).outcome = CmdOutcome.delivered p n →
      0 < n) ∧
    (∀ url p sizeOf maxBytes, _is_valid_url url = true → sizeOf p = 0 →
      (download_command url (ResolveOutcome.ok (some p)) sizeOf maxBytes).outcome =
        CmdOutcome.emptyFile) ∧
    (∀ url destDir rand maxBytes env resp hr,
      DirectEnv.head env = some hr →
      pyStartswith (HeadResponse.contentType hr).data "video/".data = true →
      DirectEnv.get env = some resp →
      GetResponse.status resp < 400 →
      0 < (GetResponse.chunks resp).sum →
      (GetResponse.chunks resp).sum ≤ maxBytes →
      (download_direct url destDir rand maxBytes env).result.isSome = true ∧
      (download_direct url destDir rand maxBytes env).fileSize =
        some (GetResponse.chunks resp).sum) := by
  refine ⟨?_, ?_, ?_⟩
  · intro url r sizeOf maxBytes p n h
    unfold download_command at h
    split at h
    · cases h
    · rcases r with q | _
      · rcases q with _ | q
        · cases h
        · dsimp only at h
          split at h
          · cases h
          · split at h
            · cases h
            · rename_i hlt hz
              cases h
              omega
      · cases h
  · intro url p sizeOf maxBytes hv hz
    unfold download_command
    rw [hv]
    simp [hz]
  · intro url destDir rand maxBytes env resp hr hhead hct hget hstatus hpos hle
    have hguard : (_has_video_extension url || _is_video_content_type env.head) = true := by
      rw [hhead]
      simp [_is_video_content_type, hct]
    exact download_direct_stream_success url destDir rand maxBytes env resp hguard hget hstatus hle

theorem c5_witness :
    (0 < 50) ∧
    ((download_command "https://example.com" (ResolveOutcome.ok (some "f.mp4"))
        (fun _ => 0) 100).outcome = CmdOutcome.emptyFile) ∧
    ((download_direct "https://example.com/x" "dl" "abcd1234" 100
        ⟨some ⟨200, "video/mp4"⟩, some ⟨200, "video/mp4", [50]⟩⟩).fileSize = some 50) := by
  refine ⟨?_, ?_, ?_⟩
  · exact c5_empty_result.1 "https://example.com" (ResolveOutcome.ok (some "f.mp4"))
      (fun _ => 50) 100 "f.mp4" 50 (by decide)
  · exact c5_empty_result.2.1 "https://example.com" "f.mp4" (fun _ => 0) 100
      (by decide) rfl
  · have h := (c5_empty_result.2.2 "https://example.com/x" "dl" "abcd1234" 100
      ⟨some ⟨200, "video/mp4"⟩, some ⟨200, "video/mp4", [50]⟩⟩
      ⟨200, "video/mp4", [50]⟩ ⟨200, "video/mp4"⟩
      rfl (by decide) rfl (by decide) (by decide) (by decide)).2
    simpa using h

/-! ### C6 -/

/-- C6: for a validated request the handler's event order is exactly
workspace acquisition, then resolution, then recursive removal, in every
outcome of the resolution (returned path, no result, or an internal
exception); and on every path, validated or not, no workspace directory
survives the handler. -/
theorem c6_workspace_cleanup (url : String) (r : ResolveOutcome)
    (sizeOf : String → Nat) (maxBytes : Nat) :
    (download_command url r sizeOf maxBytes).tmpDirExists = false ∧
    (_is_valid_url url = true →
      (download_command url r sizeOf maxBytes).events =
        [CmdEvent.mkdtemp, CmdEvent.resolveCall, CmdEvent.rmtree]) := by
  unfold download_command
  constructor
  · split
    · rfl
    · rcases r with q | _
      · rcases q with _ | q
        · rfl
        · dsimp only
          split
          · rfl
          · split
            · rfl
            · rfl
      · rfl
  · intro hv
    rw [hv]
    simp only [Bool.not_true]
    rw [if_neg (by simp)]
    rcases r with q | _
    · rcases q with _ | q
      · rfl
      · dsimp only
        split
        · rfl
        · split
          · rfl
          · rfl
    · rfl

theorem c6_witness :
    (download_command "https://example.com" ResolveOutcome.raised
      (fun _ => 0) 100).tmpDirExists = false ∧
    (download_command "https://example.com" ResolveOutcome.raised
      (fun _ => 0) 100).events = [CmdEvent.mkdtemp, CmdEvent.resolveCall, CmdEvent.rmtree] :=
  ⟨(c6_workspace_cleanup "https://example.com" ResolveOutcome.raised (fun _ => 0) 100).1,
   (c6_workspace_cleanup "https://example.com" ResolveOutcome.raised (fun _ => 0) 100).2
     (by decide)⟩

/-! ### C7 -/

/-- C7: when neither the extension heuristic nor the content-type probe
classifies the URL as video, `download_direct` returns no result at once:
no streaming GET is issued and no file is created. -/
theorem c7_guard_no_get (url destDir rand : String) (maxBytes : Nat) (env : DirectEnv)
    (hext : _has_video_extension url = false)
    (hprobe : _is_video_content_type env.head = false) :
    download_direct url destDir rand maxBytes env =
      { result := none, fileSize := none, getPerformed := false } := by
  unfold download_direct
  rw [hext, hprobe]
  rfl

theorem c7_witness :
    download_direct "https://example.com/page" "dl" "abcd1234" 100
      ⟨some ⟨200, "text/html"⟩, some ⟨200, "video/mp4", [5]⟩⟩ =
      { result := none, fileSize := none, getPerformed := false } :=
  c7_guard_no_get "https://example.com/page" "dl" "abcd1234" 100
    ⟨some ⟨200, "text/html"⟩, some ⟨200, "video/mp4", [5]⟩⟩ (by decide) (by decide)

/-! ### C9 -/

/-- C9: invariant of `download_direct`'s streaming loop (`streamLoop`,
entered with a running count of 0): the file size recorded after each
executed write never exceeds the ceiling — the chunk that would push the
count over the ceiling is never written. -/
theorem c9_write_invariant (maxBytes : Nat) (chunks : List Nat) :
    ∀ x ∈ (streamLoop maxBytes chunks 0).2, x ≤ maxBytes :=
  streamLoop_snd_le maxBytes chunks 0 (Nat.zero_le _)

theorem c9_witness :
    8192 ∈ (streamLoop 10000 [8192, 1808, 5] 0).2 ∧ 8192 ≤ 10000 :=
  ⟨by decide, c9_write_invariant 10000 [8192, 1808, 5] 8192 (by decide)⟩

/-! ### C8 -/

/-- The sanitizer as the spec words it: replace every character in the set
{<,>,:,",/,\,|,?,*} together with the control range 0x00-0x1F by "_", strip
leading and trailing dots and spaces, truncate to at most 100 characters,
and return the literal fallback "video" when the result is empty. -/
def sanitizeSpec (s : String) : String :=
  let r := s.data.map (fun c => if forbiddenChar c then '_' else c)
  let r := pyStrip ['.', ' '] r
  let r := r.take 100
  if r.isEmpty then "video" else String.mk r

theorem pyStrip_subset (set l : List Char) : pyStrip set l ⊆ l := by
  intro c hc
  unfold pyStrip at hc
  rw [List.mem_reverse] at hc
  have h2 : c ∈ (l.dropWhile (set.contains ·)).reverse :=
    (List.dropWhile_sublist _).subset hc
  rw [List.mem_reverse] at h2
  exact (List.dropWhile_sublist _).subset h2

theorem sanitizeChars_not_forbidden (cs : List Char) :
    ∀ c ∈ sanitizeChars cs, forbiddenChar c = false := by
  intro c hc
  simp only [sanitizeChars] at hc
  have hstrip : c ∈ pyStrip ['.', ' ']
      (cs.map fun c => if forbiddenChar c then '_' else c) := by
    split at hc
    · exact List.take_subset _ _ hc
    · exact hc
  have hmap := pyStrip_subset _ _ hstrip
  rw [List.mem_map] at hmap
  obtain ⟨a, _, rfl⟩ := hmap
  by_cases hfa : forbiddenChar a = true
  · rw [if_pos hfa]
    decide
  · rw [if_neg hfa]
    simpa using hfa

theorem sanitizeChars_length_le (cs : List Char) : (sanitizeChars cs).length ≤ 100 := by
  simp only [sanitizeChars]
  split
  · simp [List.length_take]
  · rename_i h
    omega

theorem sanitize_not_forbidden (s : String) :
    ∀ c ∈ (_sanitize_filename s).data, forbiddenChar c = false := by
  intro c hc
  simp only [_sanitize_filename] at hc
  split at hc
  · have hv : ∀ x ∈ "video".data, forbiddenChar x = false := by decide
    exact hv c hc
  · exact sanitizeChars_not_forbidden s.data c hc

theorem sanitize_length_le (s : String) : (_sanitize_filename s).length ≤ 100 := by
  simp only [_sanitize_filename]
  split
  · decide
  · exact sanitizeChars_length_le s.data

theorem sanitize_eq_spec (s : String) : _sanitize_filename s = sanitizeSpec s := by
  simp only [_sanitize_filename, sanitizeSpec, sanitizeChars]
  by_cases h : 100 <
      (pyStrip ['.', ' '] (s.data.map fun c => if forbiddenChar c then '_' else c)).length
  · rw [if_pos h]
  · rw [if_neg h, List.take_of_length_le (by omega)]

/-- C8: `_sanitize_filename` maps "" and "..." to "video", never outputs a
forbidden or control character, never exceeds 100 characters, and coincides
everywhere with the spec-worded pipeline `sanitizeSpec` (replace, strip,
truncate to 100, fallback "video"). -/
theorem c8_sanitizer :
    _sanitize_filename "" = "video" ∧
    _sanitize_filename "..." = "video" ∧
    (∀ s : String, ∀ c ∈ (_sanitize_filename s).data, forbiddenChar c = false) ∧
    (∀ s : String, (_sanitize_filename s).length ≤ 100) ∧
    (∀ s : String, _sanitize_filename s = sanitizeSpec s) :=
  ⟨by decide, by decide, sanitize_not_forbidden, sanitize_length_le, sanitize_eq_spec⟩

theorem c8_witness :
    forbiddenChar '_' = false ∧ (_sanitize_filename "a<b").length ≤ 100 :=
  ⟨c8_sanitizer.2.2.1 "a<b" '_' (by decide), c8_sanitizer.2.2.2.1 "a<b"⟩

/-! ### C10 -/

theorem isAlpha_not_ctrl {c : Char} (h : c.isAlpha = true) :
    whatwgControlOrSpace c = false := by
  unfold whatwgControlOrSpace
  simp only [Char.isAlpha, Char.isUpper, Char.isLower, Bool.or_eq_true, Bool.and_eq_true,
    decide_eq_true_eq] at h
  simp only [decide_eq_false_iff_not, Nat.not_le, Char.toNat]
  rcases h with ⟨h1, _⟩ | ⟨h1, _⟩
  · have h2 : (65 : UInt32).toNat ≤ c.val.toNat := h1
    have e1 : (65 : UInt32).toNat = 65 := rfl
    simp only [UInt32.toNat] at h2 e1 ⊢
    omega
  · have h2 : (97 : UInt32).toNat ≤ c.val.toNat := h1
    have e2 : (97 : UInt32).toNat = 97 := rfl
    simp only [UInt32.toNat] at h2 e2 ⊢
    omega

theorem isAlpha_url_facts {c : Char} (h : c.isAlpha = true) :
    unsafeUrlByte c = false ∧ c ≠ ':' ∧ isSchemeChar c = true := by
  have h1 : c ≠ '\t' := fun e => absurd (e ▸ h) (by decide)
  have h2 : c ≠ '\r' := fun e => absurd (e ▸ h) (by decide)
  have h3 : c ≠ '\n' := fun e => absurd (e ▸ h) (by decide)
  refine ⟨by simp [unsafeUrlByte, h1, h2, h3], ?_, by simp [isSchemeChar, h]⟩
  exact fun e => absurd (e ▸ h) (by decide)

theorem takeWhile_append_all {p : Char → Bool} {l₁ : List Char} (l₂ : List Char)
    (h : ∀ c ∈ l₁, p c = true) :
    (l₁ ++ l₂).takeWhile p = l₁ ++ l₂.takeWhile p := by
  induction l₁ with
  | nil => simp
  | cons c cs ih =>
    rw [List.cons_append, List.takeWhile_cons, h c (by simp),
      ih (fun x hx => h x (by simp [hx]))]
    simp

theorem dropWhile_append_all {p : Char → Bool} {l₁ : List Char} (l₂ : List Char)
    (h : ∀ c ∈ l₁, p c = true) :
    (l₁ ++ l₂).dropWhile p = l₂.dropWhile p := by
  induction l₁ with
  | nil => simp
  | cons c cs ih =>
    rw [List.cons_append, List.dropWhile_cons, h c (by simp)]
    exact ih (fun x hx => h x (by simp [hx]))

theorem splitScheme_eq (scheme rest : List Char) (hs1 : scheme ≠ [])
    (hs2 : ∀ c ∈ scheme, c.isAlpha = true) :
    splitScheme (scheme ++ ':' :: rest) = (scheme.map Char.toLower, rest) := by
  obtain ⟨a, as, rfl⟩ := List.exists_cons_of_ne_nil hs1
  have hne : ∀ c ∈ a :: as, (decide (c ≠ ':')) = true := by
    intro c hc
    simpa using (isAlpha_url_facts (hs2 c hc)).2.1
  have hpre : ((a :: as) ++ ':' :: rest).takeWhile (· ≠ ':') = a :: as := by
    rw [takeWhile_append_all _ hne]
    simp [List.takeWhile_cons]
  have hdrop : ((a :: as) ++ ':' :: rest).dropWhile (· ≠ ':') = ':' :: rest := by
    rw [dropWhile_append_all _ hne]
    simp [List.dropWhile_cons]
  unfold splitScheme
  rw [hpre, hdrop]
  rw [if_pos]
  · rfl
  · simp only [Bool.and_eq_true, decide_eq_true_eq]
    refine ⟨⟨⟨?_, by simp⟩, ?_⟩, ?_⟩
    · simp only [List.length_append, List.length_cons]
      omega
    · simpa using hs2 a (by simp)
    · rw [List.all_eq_true]
      intro c hc
      exact (isAlpha_url_facts (hs2 c hc)).2.2

theorem splitNetloc_host (host : List Char)
    (h : ∀ c ∈ host, notNetlocDelim c = true) :
    splitNetloc ('/' :: '/' :: host) = (host, []) := by
  simp only [splitNetloc]
  rw [List.takeWhile_eq_self_iff.mpr (fun c hc => by simpa using h c hc),
    List.dropWhile_eq_nil_iff.mpr (fun c hc => by simpa using h c hc)]

theorem pyUrlsplit_abs_url (scheme host : List Char)
    (hs1 : scheme ≠ []) (hs2 : ∀ c ∈ scheme, c.isAlpha = true)
    (hh2 : ∀ c ∈ host, whatwgControlOrSpace c = false ∧ unsafeUrlByte c = false ∧
      notNetlocDelim c = true ∧ c ≠ '[' ∧ c ≠ ']') :
    pyUrlsplit (scheme ++ ':' :: '/' :: '/' :: host) =
      some ⟨scheme.map Char.toLower, host, []⟩ := by
  obtain ⟨a, as, rfl⟩ := List.exists_cons_of_ne_nil hs1
  have hA : ((a :: as) ++ ':' :: '/' :: '/' :: host).dropWhile whatwgControlOrSpace
      = (a :: as) ++ ':' :: '/' :: '/' :: host := by
    rw [List.cons_append, List.dropWhile_cons]
    rw [isAlpha_not_ctrl (hs2 a (by simp))]
    simp
  have hB : ((a :: as) ++ ':' :: '/' :: '/' :: host).filter (fun c => !unsafeUrlByte c)
      = (a :: as) ++ ':' :: '/' :: '/' :: host := by
    rw [List.filter_eq_self]
    intro c hc
    rw [List.mem_append] at hc
    rcases hc with hsch | hc
    · simp [(isAlpha_url_facts (hs2 c hsch)).1]
    · simp only [List.mem_cons] at hc
      rcases hc with rfl | rfl | rfl | hhost
      · decide
      · decide
      · decide
      · simp [(hh2 c hhost).2.1]
  have hbra1 : '[' ∉ host := fun hm => (hh2 _ hm).2.2.2.1 rfl
  have hbra2 : ']' ∉ host := fun hm => (hh2 _ hm).2.2.2.2 rfl
  simp only [pyUrlsplit]
  rw [hA, hB, splitScheme_eq (a :: as) ('/' :: '/' :: host) hs1 hs2,
    splitNetloc_host host (fun c hc => (hh2 c hc).2.2.1)]
  simp [hbra1, hbra2]

theorem pyUrlparse_abs_url (scheme host : List Char)
    (hs1 : scheme ≠ []) (hs2 : ∀ c ∈ scheme, c.isAlpha = true)
    (hh2 : ∀ c ∈ host, whatwgControlOrSpace c = false ∧ unsafeUrlByte c = false ∧
      notNetlocDelim c = true ∧ c ≠ '[' ∧ c ≠ ']') :
    pyUrlparse (scheme ++ ':' :: '/' :: '/' :: host) =
      some ⟨scheme.map Char.toLower, host, []⟩ := by
  unfold pyUrlparse
  rw [pyUrlsplit_abs_url scheme host hs1 hs2 hh2]
  rfl

/-- C10: URL-scheme matching in `_is_valid_url` is case-insensitive — any
alphabetic scheme whose lower-casing is "http" or "https", followed by
"://" and a plain non-empty host, validates, because the parser stores the
scheme lower-cased (second conjunct) before `_is_valid_url` compares it. -/
theorem c10_scheme_case_insensitive (scheme host : List Char)
    (hs1 : scheme ≠ []) (hs2 : ∀ c ∈ scheme, c.isAlpha = true)
    (hs3 : scheme.map Char.toLower = "http".data ∨
      scheme.map Char.toLower = "https".data)
    (hh1 : host ≠ [])
    (hh2 : ∀ c ∈ host, whatwgControlOrSpace c = false ∧ unsafeUrlByte c = false ∧
      notNetlocDelim c = true ∧ c ≠ '[' ∧ c ≠ ']') :
    _is_valid_url (String.mk (scheme ++ ':' :: '/' :: '/' :: host)) = true ∧
    (pyUrlparse (scheme ++ ':' :: '/' :: '/' :: host)).map UrlParts.scheme =
      some (scheme.map Char.toLower) := by
  have hp := pyUrlparse_abs_url scheme host hs1 hs2 hh2
  constructor
  · unfold _is_valid_url
    rw [show (String.mk (scheme ++ ':' :: '/' :: '/' :: host)).data
        = scheme ++ ':' :: '/' :: '/' :: host from rfl, hp]
    obtain ⟨b, bs, rfl⟩ := List.exists_cons_of_ne_nil hh1
    rcases hs3 with h | h <;> simp [h]
  · rw [hp]
    rfl

theorem c10_witness : _is_valid_url "HTTPS://example.com" = true := by
  have h := (c10_scheme_case_insensitive "HTTPS".data "example.com".data
    (by decide) (by decide) (by decide) (by decide) (by decide)).1
  have e : String.mk ("HTTPS".data ++ ':' :: '/' :: '/' :: "example.com".data)
      = "HTTPS://example.com" := by decide
  rw [e] at h
  exact h

end VideoBot
